import Mathlib

/-!
# Asynchronous file I/O layer of `src/win/file.c` — shallow embedding

This file embeds the Windows asynchronous file-I/O layer (`src/win/file.c`)
into Lean and proves the spec's claims about it.

Modelling conventions:
* `LARGE_INTEGER.QuadPart` (the 64-bit signed logical cursor) and the C `int`
  pending counters are modelled as mathematical `Int`: signed overflow is
  undefined behaviour in C, so every defined execution agrees with the
  mathematical value.
* `size_t` queue-byte counters are modelled as `Int` as well; on every state
  considered here the subtractions stay non-negative, where C's unsigned
  wraparound and the mathematical value coincide.
* `DWORD` (`bytes_transferred`) is an unsigned 32-bit quantity; it is modelled
  as `Nat` with explicit reduction `% 2^32`, and `(DWORD)-1` is `2^32 - 1`.
* The operating system's responses (`ReadFile`/`WriteFile` outcome,
  `GetOverlappedResult` outcome) are oracle parameters of the functions.
* Callbacks are modelled by presence flags plus the values that would be
  delivered to them; ghost counters record how often they fire.
-/

namespace UvFile

/-- `uv_offset_disposition` (START / CURRENT / END). -/
inductive Disposition
  | START
  | CURRENT
  | END
deriving DecidableEq, Repr

/-- Error channel of a submission call: `uv_set_error(UV_ENOTSUP, 0)` or
`uv_set_sys_error(GetLastError())` followed by `return -1`, or success
(`return 0`). -/
inductive SubmitRet
  | notsup
  | syserr (code : Nat)
  | ok
deriving DecidableEq, Repr

/-- Outcome of the overlapped `ReadFile`/`WriteFile` call, an OS oracle:
nonzero result (synchronous completion), zero with `ERROR_IO_PENDING`
(asynchronous), or zero with any other error code (hard failure). -/
inductive OSSubmit
  | sync
  | pending
  | hardFail (code : Nat)
deriving DecidableEq, Repr

/-- The handle-state flag bits used by this layer:
`UV_HANDLE_BOUND`, `UV_HANDLE_SHUTTING`, `UV_HANDLE_SHUT`,
`UV_HANDLE_CLOSING`, `UV_HANDLE_CLOSED`. -/
structure Flags where
  bound : Bool
  shutting : Bool
  shut : Bool
  closing : Bool
  closed : Bool
deriving DecidableEq, Repr

/-- The `uv_file_t` handle state manipulated by `src/win/file.c`.
`handleValid` models `handle->handle != INVALID_HANDLE_VALUE`;
`closeHandleCalls` is a ghost count of `CloseHandle` invocations;
`closeCbCalls` is a ghost count of `close_cb` invocations. -/
structure FileState where
  handleValid : Bool
  file_pointer : Int
  reqs_pending : Int
  read_reqs_pending : Int
  write_reqs_pending : Int
  read_queue_size : Int
  write_queue_size : Int
  flags : Flags
  hasCloseCb : Bool
  closeCbCalls : Nat
  closeHandleCalls : Nat
deriving DecidableEq, Repr

/-- Request direction (`UV_READ` / `UV_WRITE` request type). -/
inductive ReqDir
  | read
  | write
deriving DecidableEq, Repr

/-- The request fields populated by `uv_file_read_offset` /
`uv_file_write_offset`: type, resolved absolute offset encoded into
`req->overlapped.Offset/OffsetHigh` (kept as the 64-bit quantity),
the single buffer's length, `queued_bytes`, whether `req->cb` is non-null,
and `req->error` (true means `UV_OK`, as set by `uv_req_init`). -/
structure IOReq where
  dir : ReqDir
  overlappedOffset : Int
  bufLen : Nat
  queued_bytes : Nat
  hasCb : Bool
  errOk : Bool
deriving DecidableEq, Repr

/-- Result of a submission call: the function's return channel, the handle
state after the call, and the populated request (`none` when the call
returned before `uv_req_init`, i.e. on the `bufcnt`/`END` validation
failures). -/
structure SubmitOut where
  ret : SubmitRet
  st : FileState
  req : Option IOReq
deriving DecidableEq, Repr

/-- `uv_count_bufs` (buffer/vector utility, declared outside this file):
sum of the buffer lengths. -/
def uv_count_bufs (bufs : List Nat) : Nat := bufs.sum

/-- The offset-resolution `switch` shared verbatim by `uv_file_read_offset`
(file.c:95-106) and `uv_file_write_offset` (file.c:178-189): `UV_START`
takes the requested offset verbatim, `UV_CURRENT` adds it to the handle's
logical cursor `file->file_pointer`, `UV_END` fails with `UV_ENOTSUP`. -/
def resolveOffset (cursor : Int) (offset : Int) (disposition : Disposition) :
    Option Int :=
  match disposition with
  | .START => some offset
  | .CURRENT => some (cursor + offset)
  | .END => none

/-- `uv_file_read_offset` (file.c:80-153).  `bufs` is the list of buffer
lengths (`bufcnt = bufs.length`); `hasCb` records whether `read_cb` is
non-null; `os` is the `ReadFile` oracle. -/
def uv_file_read_offset (file : FileState) (offset : Int)
    (disposition : Disposition) (bufs : List Nat) (hasCb : Bool)
    (os : OSSubmit) : SubmitOut :=
  if bufs.length ≠ 1 then
    ⟨.notsup, file, none⟩
  else
    match resolveOffset file.file_pointer offset disposition with
    | none => ⟨.notsup, file, none⟩
    | some true_offset =>
      let len := bufs.headD 0
      let req : IOReq :=
        { dir := .read, overlappedOffset := true_offset, bufLen := len,
          queued_bytes := 0, hasCb := hasCb, errOk := true }
      let file := { file with file_pointer := file.file_pointer + (len : Int) }
      match os with
      | .hardFail code => ⟨.syserr code, file, some req⟩
      | .sync =>
        let file :=
          { file with reqs_pending := file.reqs_pending + 1,
                      read_reqs_pending := file.read_reqs_pending + 1 }
        ⟨.ok, file, some req⟩
      | .pending =>
        let req := { req with queued_bytes := uv_count_bufs bufs }
        let file :=
          { file with
              read_queue_size :=
                file.read_queue_size + (uv_count_bufs bufs : Int),
              reqs_pending := file.reqs_pending + 1,
              read_reqs_pending := file.read_reqs_pending + 1 }
        ⟨.ok, file, some req⟩

/-- `uv_file_write_offset` (file.c:163-224), symmetric to the read path. -/
def uv_file_write_offset (file : FileState) (offset : Int)
    (disposition : Disposition) (bufs : List Nat) (hasCb : Bool)
    (os : OSSubmit) : SubmitOut :=
  if bufs.length ≠ 1 then
    ⟨.notsup, file, none⟩
  else
    match resolveOffset file.file_pointer offset disposition with
    | none => ⟨.notsup, file, none⟩
    | some true_offset =>
      let len := bufs.headD 0
      let req : IOReq :=
        { dir := .write, overlappedOffset := true_offset, bufLen := len,
          queued_bytes := 0, hasCb := hasCb, errOk := true }
      let file := { file with file_pointer := file.file_pointer + (len : Int) }
      match os with
      | .hardFail code => ⟨.syserr code, file, some req⟩
      | .sync =>
        let file :=
          { file with reqs_pending := file.reqs_pending + 1,
                      write_reqs_pending := file.write_reqs_pending + 1 }
        ⟨.ok, file, some req⟩
      | .pending =>
        let req := { req with queued_bytes := uv_count_bufs bufs }
        let file :=
          { file with
              write_queue_size :=
                file.write_queue_size + (uv_count_bufs bufs : Int),
              reqs_pending := file.reqs_pending + 1,
              write_reqs_pending := file.write_reqs_pending + 1 }
        ⟨.ok, file, some req⟩

/-- `uv_file_read` (file.c:72-78): sequential read at the current logical
cursor, i.e. offset 0 with `UV_CURRENT` disposition. -/
def uv_file_read (file : FileState) (bufs : List Nat) (hasCb : Bool)
    (os : OSSubmit) : SubmitOut :=
  uv_file_read_offset file 0 .CURRENT bufs hasCb os

/-- `uv_file_write` (file.c:155-161): sequential write at the current logical
cursor. -/
def uv_file_write (file : FileState) (bufs : List Nat) (hasCb : Bool)
    (os : OSSubmit) : SubmitOut :=
  uv_file_write_offset file 0 .CURRENT bufs hasCb os

/-- `uv_file_init` (file.c:24-40), success path: zeroed counters
(`uv_stream_init` zeroes the generic stream bookkeeping), the native handle
stored and registered with the IOCP, the current file position captured as
the initial logical cursor (`uv_set_file_handle`, file.c:7-22), and
`UV_HANDLE_BOUND` set.  `initialPos` is what `SetFilePointerEx` reports. -/
def uv_file_init (initialPos : Int) : FileState :=
  { handleValid := true
    file_pointer := initialPos
    reqs_pending := 0
    read_reqs_pending := 0
    write_reqs_pending := 0
    read_queue_size := 0
    write_queue_size := 0
    flags := { bound := true, shutting := false, shut := false,
               closing := false, closed := false }
    hasCloseCb := false
    closeCbCalls := 0
    closeHandleCalls := 0 }

/-- `close_file` (file.c:42-46): `CloseHandle(file->handle)`, set the native
handle to `INVALID_HANDLE_VALUE`, set `UV_HANDLE_SHUT`. -/
def close_file (file : FileState) : FileState :=
  { file with handleValid := false
              closeHandleCalls := file.closeHandleCalls + 1
              flags := { file.flags with shut := true } }

/-- First conditional of `uv_file_endgame` (file.c:52-57): the graceful
shutdown step.  If `UV_HANDLE_SHUTTING` is set, `UV_HANDLE_SHUT` is not yet
set and no writes are pending, release the resource via `close_file` and
decrement `reqs_pending` (the shutdown's own virtual request). -/
def uv_file_endgame_shutdown (handle : FileState) : FileState :=
  if handle.flags.shutting && !handle.flags.shut &&
      handle.write_reqs_pending == 0 then
    let handle := close_file handle
    { handle with reqs_pending := handle.reqs_pending - 1 }
  else
    handle

/-- Second conditional of `uv_file_endgame` (file.c:59-69): the final
teardown step.  If `UV_HANDLE_CLOSING` is set and no requests are pending,
assert the handle is not already closed (`none` models the assertion
firing), set `UV_HANDLE_CLOSED`, invoke `close_cb` if present, and release
the loop keep-alive reference (`uv_unref`, loop state outside this model). -/
def uv_file_endgame_close (handle : FileState) : Option FileState :=
  if handle.flags.closing && handle.reqs_pending == 0 then
    if handle.flags.closed then
      none
    else
      let handle := { handle with flags := { handle.flags with closed := true } }
      let handle :=
        if handle.hasCloseCb then
          { handle with closeCbCalls := handle.closeCbCalls + 1 }
        else
          handle
      some handle
  else
    some handle

/-- `uv_file_endgame` (file.c:48-70): the shutdown conditional followed by
the close conditional, in source order. -/
def uv_file_endgame (handle : FileState) : Option FileState :=
  uv_file_endgame_close (uv_file_endgame_shutdown handle)

/-- All-bits-set 32-bit value: `bytes_transferred = -1` where
`bytes_transferred` is a `DWORD`. -/
def dwordAllBits : Nat := 2 ^ 32 - 1

/-- `uv_process_file_read_req` (file.c:245-262).  `query` is the
`GetOverlappedResult` oracle: `some n` means it succeeded reporting `n`
transferred bytes (a `DWORD`), `none` that it failed.  Returns the handle
state and `some nread` when the read callback was invoked with `nread`
(`bytes_transferred`), `none` when `req->cb` was null.
`DECREASE_PENDING_REQ_COUNT` is modelled from the spec: it decrements the
handle's total pending counter (the macro lives outside `src/win/file.c`). -/
def uv_process_file_read_req (handle : FileState) (req : IOReq)
    (query : Option Nat) : FileState × Option Nat :=
  let handle :=
    { handle with
        read_queue_size := handle.read_queue_size - (req.queued_bytes : Int) }
  let bytes_transferred : Nat :=
    match query with
    | some n => n % 2 ^ 32
    | none => dwordAllBits
  let cbCall : Option Nat := if req.hasCb then some bytes_transferred else none
  let handle :=
    { handle with read_reqs_pending := handle.read_reqs_pending - 1,
                  reqs_pending := handle.reqs_pending - 1 }
  (handle, cbCall)

/-- `uv_process_file_write_req` (file.c:226-243).  Returns the handle state,
`some status` when the write callback was invoked with that status
(`UV_OK = 0` when `req->error` is `UV_OK`, else `-1`), and the
`bytes_transferred` value the function computed (a `DWORD`; unused by the
write callback but set to the all-bits sentinel on query failure). -/
def uv_process_file_write_req (handle : FileState) (req : IOReq)
    (query : Option Nat) : FileState × Option Int × Nat :=
  let handle :=
    { handle with
        write_queue_size := handle.write_queue_size - (req.queued_bytes : Int) }
  let bytes_transferred : Nat :=
    match query with
    | some n => n % 2 ^ 32
    | none => dwordAllBits
  let cbCall : Option Int := if req.hasCb then some (if req.errOk then 0 else -1) else none
  let handle :=
    { handle with write_reqs_pending := handle.write_reqs_pending - 1,
                  reqs_pending := handle.reqs_pending - 1 }
  (handle, cbCall, bytes_transferred)

/-- Modelled from the spec: the graceful-shutdown request (`uv_shutdown`,
outside `src/`) arms `UV_HANDLE_SHUTTING` and accounts one virtual pending
request, which the shutdown step of `uv_file_endgame` later decrements
("`pending_total` is decremented by one (accounting for the shutdown's own
virtual request)"). -/
def uv_shutdown_model (handle : FileState) : FileState :=
  { handle with flags := { handle.flags with shutting := true }
                reqs_pending := handle.reqs_pending + 1 }

/-- Modelled from the spec: `close(handle, callback)` (`uv_close`, outside
`src/`) "arms `closing`; actual teardown deferred" to the endgame steps.
`hasCb` records whether a close callback was supplied. -/
def uv_close_model (handle : FileState) (hasCb : Bool) : FileState :=
  { handle with flags := { handle.flags with closing := true }
                hasCloseCb := hasCb }

/-! ## Trace semantics

A `World` pairs the handle state with the environment's bookkeeping: the
lists of in-flight (submitted, not yet delivered) read and write requests,
and ghost counts of read/write callback invocations.  The external loop
delivers each completed request exactly once, in an arbitrary order; a
completion event therefore picks an arbitrary in-flight request by index. -/

structure World where
  st : FileState
  inflightReads : List IOReq
  inflightWrites : List IOReq
  readCbCalls : Nat
  writeCbCalls : Nat
deriving DecidableEq, Repr

/-- Events of the layer: submissions (with OS oracle), completion
deliveries (with `GetOverlappedResult` oracle), the endgame step, and the
spec-modelled shutdown/close requests. -/
inductive Event
  | subRead (offset : Int) (disp : Disposition) (bufs : List Nat)
      (hasCb : Bool) (os : OSSubmit)
  | subWrite (offset : Int) (disp : Disposition) (bufs : List Nat)
      (hasCb : Bool) (os : OSSubmit)
  | compRead (i : Nat) (query : Option Nat)
  | compWrite (i : Nat) (query : Option Nat)
  | endgame
  | shutdownReq
  | closeReq (hasCb : Bool)
deriving DecidableEq, Repr

/-- The events of the claim "submissions, completions, and endgame steps":
everything except the spec-modelled shutdown/close requests. -/
def Event.isBasic : Event → Bool
  | .shutdownReq => false
  | .closeReq _ => false
  | _ => true

/-- One step of the system.  `none` models executions the environment
contract rules out or that abort: completing a request that is not in
flight, re-arming an already armed shutdown/close, or tripping the
`assert` in `uv_file_endgame`. -/
def step (w : World) (e : Event) : Option World :=
  match e with
  | .subRead off disp bufs hasCb os =>
    let out := uv_file_read_offset w.st off disp bufs hasCb os
    match out.ret with
    | .ok =>
      some { w with st := out.st,
                    inflightReads := out.req.toList ++ w.inflightReads }
    | _ => some { w with st := out.st }
  | .subWrite off disp bufs hasCb os =>
    let out := uv_file_write_offset w.st off disp bufs hasCb os
    match out.ret with
    | .ok =>
      some { w with st := out.st,
                    inflightWrites := out.req.toList ++ w.inflightWrites }
    | _ => some { w with st := out.st }
  | .compRead i query =>
    match w.inflightReads[i]? with
    | none => none
    | some r =>
      let out := uv_process_file_read_req w.st r query
      some { w with st := out.1,
                    inflightReads := w.inflightReads.eraseIdx i,
                    readCbCalls := w.readCbCalls + (if out.2.isSome then 1 else 0) }
  | .compWrite i query =>
    match w.inflightWrites[i]? with
    | none => none
    | some r =>
      let out := uv_process_file_write_req w.st r query
      some { w with st := out.1,
                    inflightWrites := w.inflightWrites.eraseIdx i,
                    writeCbCalls := w.writeCbCalls + (if out.2.1.isSome then 1 else 0) }
  | .endgame =>
    match uv_file_endgame w.st with
    | none => none
    | some st => some { w with st := st }
  | .shutdownReq =>
    if w.st.flags.shutting then none
    else some { w with st := uv_shutdown_model w.st }
  | .closeReq hasCb =>
    if w.st.flags.closing then none
    else some { w with st := uv_close_model w.st hasCb }

/-- The world right after `uv_file_init` succeeded. -/
def initWorld (initialPos : Int) : World :=
  { st := uv_file_init initialPos
    inflightReads := []
    inflightWrites := []
    readCbCalls := 0
    writeCbCalls := 0 }

/-- Run a list of events from a world, aborting on a refused step. -/
def run (w : World) : List Event → Option World
  | [] => some w
  | e :: es =>
    match step w e with
    | none => none
    | some w' => run w' es

/-! ## Cursor reservation (C1) -/

/-- One element of a back-to-back sequential burst: the direction, the
single buffer's length, and the OS oracle for that submission call. -/
structure Burst where
  dir : ReqDir
  len : Nat
  os : OSSubmit
deriving DecidableEq, Repr

/-- Issue a burst of sequential submissions (`uv_file_read` /
`uv_file_write`, i.e. offset 0 with `CURRENT` disposition) back-to-back
with no intervening completion, collecting each submission's resolved
absolute offset (the value encoded into `req->overlapped`). -/
def burstSubmit (file : FileState) (b : Burst) : SubmitOut :=
  match b.dir with
  | .read => uv_file_read file [b.len] true b.os
  | .write => uv_file_write file [b.len] true b.os

def submitSeq (file : FileState) : List Burst → FileState × List (Option Int)
  | [] => (file, [])
  | b :: rest =>
    let out := burstSubmit file b
    let r := submitSeq out.st rest
    (r.1, (out.req.map (·.overlappedOffset)) :: r.2)

/-- Specification-side definition (from the spec's words, for comparison):
the predicted offsets are the cumulative prefix sums — the i-th offset is
the starting cursor plus the sum of the preceding buffer lengths. -/
def specPrefixOffsets (c : Int) : List Nat → List Int
  | [] => []
  | l :: ls => c :: specPrefixOffsets (c + (l : Int)) ls

/-! ## Counter/flag invariants along traces (C2, C3) -/

/-- The virtual pending request of an armed but not-yet-performed graceful
shutdown (accounted by the shutdown request, released by the shutdown step
of `uv_file_endgame`). -/
def shutdownVirtual (st : FileState) : Int :=
  if st.flags.shutting = true ∧ st.flags.shut = false then 1 else 0

/-- Handle-state invariant, relative to the number of in-flight read and
write requests: the direction counters count exactly the in-flight
requests, `reqs_pending` is their sum plus the shutdown's virtual request,
the ghost close-callback count matches the `closed` flag, and the flag
axes are consistent. -/
def InvSt (st : FileState) (nr nw : Nat) : Prop :=
  st.read_reqs_pending = (nr : Int) ∧
  st.write_reqs_pending = (nw : Int) ∧
  st.reqs_pending =
    st.read_reqs_pending + st.write_reqs_pending + shutdownVirtual st ∧
  st.closeCbCalls =
    (if st.flags.closed = true ∧ st.hasCloseCb = true then 1 else 0) ∧
  (st.flags.closed = true → st.flags.closing = true) ∧
  (st.flags.shut = true → st.flags.shutting = true)

/-- World invariant: the handle-state invariant at the environment's
in-flight request counts. -/
def Inv (w : World) : Prop :=
  InvSt w.st w.inflightReads.length w.inflightWrites.length


/-! ## Theorems -/

/-! ## Function-level claims -/

/-- C5: offset resolution — `START` yields the requested offset verbatim
(any signed value, no validation), `CURRENT` yields the handle's logical
cursor plus the requested offset, and an `END`-disposition submission
(read or write) fails with unsupported-operation before any handle or
request state is mutated. -/
theorem offset_resolution (cursor off : Int) (file : FileState)
    (bufs : List Nat) (hasCb : Bool) (os : OSSubmit) :
    resolveOffset cursor off .START = some off ∧
    resolveOffset cursor off .CURRENT = some (cursor + off) ∧
    uv_file_read_offset file off .END bufs hasCb os =
      ⟨.notsup, file, none⟩ ∧
    uv_file_write_offset file off .END bufs hasCb os =
      ⟨.notsup, file, none⟩ := by
  refine ⟨rfl, rfl, ?_, ?_⟩ <;>
    · simp only [uv_file_read_offset, uv_file_write_offset, resolveOffset]
      split <;> rfl

/-- C6: single-buffer enforcement — a read or write submission whose
buffer-list length is 0 or ≥ 2 fails with unsupported-operation and leaves
the handle state (cursor, pending counters, queue-bytes counters)
entirely unchanged. -/
theorem single_buffer_enforcement (file : FileState) (off : Int)
    (disp : Disposition) (bufs : List Nat) (hasCb : Bool) (os : OSSubmit)
    (h : bufs.length = 0 ∨ 2 ≤ bufs.length) :
    uv_file_read_offset file off disp bufs hasCb os =
      ⟨.notsup, file, none⟩ ∧
    uv_file_write_offset file off disp bufs hasCb os =
      ⟨.notsup, file, none⟩ := by
  have hne : bufs.length ≠ 1 := by omega
  constructor <;> simp [uv_file_read_offset, uv_file_write_offset, hne]

/-- Witness for C6 at a two-buffer submission on a fresh handle. -/
theorem single_buffer_enforcement_witness :
    uv_file_read_offset (uv_file_init 0) 0 .CURRENT [4, 4] true .pending =
      ⟨.notsup, uv_file_init 0, none⟩ ∧
    uv_file_write_offset (uv_file_init 0) 0 .CURRENT [4, 4] true .pending =
      ⟨.notsup, uv_file_init 0, none⟩ :=
  single_buffer_enforcement (uv_file_init 0) 0 .CURRENT [4, 4] true .pending
    (by decide)

/-- C7: hard submission failure asymmetry — when the OS call hard-fails,
the submission returns the translated system error, no pending or
queue-bytes counter is incremented, but the logical cursor remains
advanced by the buffer length. -/
theorem hard_failure_asymmetry (file : FileState) (off : Int)
    (disp : Disposition) (len : Nat) (hasCb : Bool) (code : Nat)
    (hd : disp ≠ .END) :
    (uv_file_read_offset file off disp [len] hasCb (.hardFail code)).ret =
      .syserr code ∧
    (uv_file_read_offset file off disp [len] hasCb (.hardFail code)).st =
      { file with file_pointer := file.file_pointer + (len : Int) } ∧
    (uv_file_write_offset file off disp [len] hasCb (.hardFail code)).ret =
      .syserr code ∧
    (uv_file_write_offset file off disp [len] hasCb (.hardFail code)).st =
      { file with file_pointer := file.file_pointer + (len : Int) } := by
  cases disp <;>
    simp_all [uv_file_read_offset, uv_file_write_offset, resolveOffset]

/-- Witness for C7: a hard-failing read and write of 8 bytes on a fresh
handle leave the cursor advanced to 8 while all counters stay zero. -/
theorem hard_failure_asymmetry_witness :
    (uv_file_read_offset (uv_file_init 0) 0 .CURRENT [8] true
        (.hardFail 5)).ret = .syserr 5 ∧
    (uv_file_read_offset (uv_file_init 0) 0 .CURRENT [8] true
        (.hardFail 5)).st =
      { uv_file_init 0 with file_pointer := (0 : Int) + (8 : Nat) } ∧
    (uv_file_write_offset (uv_file_init 0) 0 .CURRENT [8] true
        (.hardFail 5)).ret = .syserr 5 ∧
    (uv_file_write_offset (uv_file_init 0) 0 .CURRENT [8] true
        (.hardFail 5)).st =
      { uv_file_init 0 with file_pointer := (0 : Int) + (8 : Nat) } :=
  hard_failure_asymmetry (uv_file_init 0) 0 .CURRENT 8 true 5 (by decide)

/-- C8: completion-query failure sentinel — when `GetOverlappedResult`
fails, the completion processors use the all-bits-set 32-bit value
(`(DWORD)-1`) as the transferred byte count; for reads this is the `nread`
value handed to the read callback. -/
theorem completion_query_failure_sentinel (handle : FileState) (req : IOReq)
    (h : req.hasCb = true) :
    (uv_process_file_read_req handle req none).2 = some (2 ^ 32 - 1) ∧
    (uv_process_file_write_req handle req none).2.2 = 2 ^ 32 - 1 := by
  simp [uv_process_file_read_req, uv_process_file_write_req, dwordAllBits, h]

/-- Witness for C8 at a concrete request with a callback. -/
theorem completion_query_failure_sentinel_witness :
    (uv_process_file_read_req (uv_file_init 0)
        ⟨.read, 0, 8, 8, true, true⟩ none).2 = some (2 ^ 32 - 1) ∧
    (uv_process_file_write_req (uv_file_init 0)
        ⟨.write, 0, 8, 8, true, true⟩ none).2.2 = 2 ^ 32 - 1 :=
  completion_query_failure_sentinel (uv_file_init 0)
    ⟨.read, 0, 8, 8, true, true⟩ rfl |>.imp id
    (fun _ => (completion_query_failure_sentinel (uv_file_init 0)
      ⟨.write, 0, 8, 8, true, true⟩ rfl).2)

/-- C9: a null completion callback is tolerated — the completion
processors still decrement the queue-bytes counter by the request's
`queued_bytes` and decrement the direction-specific and total pending
counters, and invoke no callback. -/
theorem null_callback_tolerated (handle : FileState) (req : IOReq)
    (query : Option Nat) (h : req.hasCb = false) :
    (uv_process_file_read_req handle req query).2 = none ∧
    (uv_process_file_read_req handle req query).1.read_queue_size =
      handle.read_queue_size - (req.queued_bytes : Int) ∧
    (uv_process_file_read_req handle req query).1.read_reqs_pending =
      handle.read_reqs_pending - 1 ∧
    (uv_process_file_read_req handle req query).1.reqs_pending =
      handle.reqs_pending - 1 ∧
    (uv_process_file_write_req handle req query).2.1 = none ∧
    (uv_process_file_write_req handle req query).1.write_queue_size =
      handle.write_queue_size - (req.queued_bytes : Int) ∧
    (uv_process_file_write_req handle req query).1.write_reqs_pending =
      handle.write_reqs_pending - 1 ∧
    (uv_process_file_write_req handle req query).1.reqs_pending =
      handle.reqs_pending - 1 := by
  simp [uv_process_file_read_req, uv_process_file_write_req, h]

/-- Witness for C9 at a concrete callback-less request. -/
theorem null_callback_tolerated_witness :
    (uv_process_file_read_req (uv_file_init 0)
        ⟨.read, 0, 8, 8, false, true⟩ (some 8)).2 = none ∧
    (uv_process_file_read_req (uv_file_init 0)
        ⟨.read, 0, 8, 8, false, true⟩ (some 8)).1.read_queue_size =
      (uv_file_init 0).read_queue_size - ((8 : Nat) : Int) ∧
    (uv_process_file_read_req (uv_file_init 0)
        ⟨.read, 0, 8, 8, false, true⟩ (some 8)).1.read_reqs_pending =
      (uv_file_init 0).read_reqs_pending - 1 ∧
    (uv_process_file_read_req (uv_file_init 0)
        ⟨.read, 0, 8, 8, false, true⟩ (some 8)).1.reqs_pending =
      (uv_file_init 0).reqs_pending - 1 ∧
    (uv_process_file_write_req (uv_file_init 0)
        ⟨.read, 0, 8, 8, false, true⟩ (some 8)).2.1 = none ∧
    (uv_process_file_write_req (uv_file_init 0)
        ⟨.read, 0, 8, 8, false, true⟩ (some 8)).1.write_queue_size =
      (uv_file_init 0).write_queue_size - ((8 : Nat) : Int) ∧
    (uv_process_file_write_req (uv_file_init 0)
        ⟨.read, 0, 8, 8, false, true⟩ (some 8)).1.write_reqs_pending =
      (uv_file_init 0).write_reqs_pending - 1 ∧
    (uv_process_file_write_req (uv_file_init 0)
        ⟨.read, 0, 8, 8, false, true⟩ (some 8)).1.reqs_pending =
      (uv_file_init 0).reqs_pending - 1 :=
  null_callback_tolerated (uv_file_init 0)
    ⟨.read, 0, 8, 8, false, true⟩ (some 8) rfl

/-- C4: the graceful shutdown step — when `shutting` is set, `shut` is not
yet set and no writes are pending, it closes the OS resource
(`CloseHandle`), invalidates the native handle, sets `shut`, and
decrements `reqs_pending` by exactly one, changing nothing else; when the
guard is false it is an idempotent no-op. -/
theorem graceful_shutdown_step (st : FileState) :
    (st.flags.shutting = true → st.flags.shut = false →
      st.write_reqs_pending = 0 →
      uv_file_endgame_shutdown st =
        { st with handleValid := false,
                  closeHandleCalls := st.closeHandleCalls + 1,
                  flags := { st.flags with shut := true },
                  reqs_pending := st.reqs_pending - 1 }) ∧
    (st.flags.shutting = false ∨ st.flags.shut = true ∨
        st.write_reqs_pending ≠ 0 →
      uv_file_endgame_shutdown st = st) := by
  constructor
  · intro h1 h2 h3
    simp [uv_file_endgame_shutdown, close_file, h1, h2, h3]
  · intro h
    rcases h with h | h | h <;> simp [uv_file_endgame_shutdown, h]

/-- Witness for C4: the guard-true branch on a shutdown-armed fresh
handle, and the guard-false no-op on a fresh handle. -/
theorem graceful_shutdown_step_witness :
    uv_file_endgame_shutdown (uv_shutdown_model (uv_file_init 0)) =
      { uv_shutdown_model (uv_file_init 0) with
          handleValid := false,
          closeHandleCalls :=
            (uv_shutdown_model (uv_file_init 0)).closeHandleCalls + 1,
          flags := { (uv_shutdown_model (uv_file_init 0)).flags with
                       shut := true },
          reqs_pending :=
            (uv_shutdown_model (uv_file_init 0)).reqs_pending - 1 } ∧
    uv_file_endgame_shutdown (uv_file_init 0) = uv_file_init 0 :=
  ⟨(graceful_shutdown_step (uv_shutdown_model (uv_file_init 0))).1
      rfl rfl rfl,
   (graceful_shutdown_step (uv_file_init 0)).2 (Or.inl rfl)⟩

/-- C10: the shutdown guard does not consult pending reads — with
`shutting` set, `shut` clear, no pending writes but pending reads
outstanding, the step still closes the OS resource and invalidates the
native handle, leaving the reads in flight against it. -/
theorem shutdown_guard_ignores_reads (st : FileState)
    (hsh : st.flags.shutting = true) (hns : st.flags.shut = false)
    (hw : st.write_reqs_pending = 0) (hr : 0 < st.read_reqs_pending) :
    (uv_file_endgame_shutdown st).handleValid = false ∧
    (uv_file_endgame_shutdown st).closeHandleCalls =
      st.closeHandleCalls + 1 ∧
    (uv_file_endgame_shutdown st).flags.shut = true ∧
    (uv_file_endgame_shutdown st).read_reqs_pending =
      st.read_reqs_pending ∧
    0 < (uv_file_endgame_shutdown st).read_reqs_pending := by
  refine ⟨?_, ?_, ?_, ?_, ?_⟩ <;>
    simp [uv_file_endgame_shutdown, close_file, hsh, hns, hw, hr]

/-- Witness for C10: a pending read followed by a shutdown request reaches
a state where the endgame step invalidates the handle with the read still
in flight. -/
theorem shutdown_guard_ignores_reads_witness :
    ∃ w, run (initWorld 0)
        [Event.subRead 0 .CURRENT [5] true .pending, Event.shutdownReq] =
        some w ∧
      ((uv_file_endgame_shutdown w.st).handleValid = false ∧
       (uv_file_endgame_shutdown w.st).closeHandleCalls =
         w.st.closeHandleCalls + 1 ∧
       (uv_file_endgame_shutdown w.st).flags.shut = true ∧
       (uv_file_endgame_shutdown w.st).read_reqs_pending =
         w.st.read_reqs_pending ∧
       0 < (uv_file_endgame_shutdown w.st).read_reqs_pending) :=
  ⟨_, rfl, shutdown_guard_ignores_reads _ rfl rfl rfl (by decide)⟩

lemma uv_file_read_seq (file : FileState) (len : Nat) (os : OSSubmit) :
    (uv_file_read file [len] true os).req.map (·.overlappedOffset) =
      some file.file_pointer ∧
    (uv_file_read file [len] true os).st.file_pointer =
      file.file_pointer + (len : Int) := by
  cases os <;>
    simp [uv_file_read, uv_file_read_offset, resolveOffset]

lemma uv_file_write_seq (file : FileState) (len : Nat) (os : OSSubmit) :
    (uv_file_write file [len] true os).req.map (·.overlappedOffset) =
      some file.file_pointer ∧
    (uv_file_write file [len] true os).st.file_pointer =
      file.file_pointer + (len : Int) := by
  cases os <;>
    simp [uv_file_write, uv_file_write_offset, resolveOffset]

lemma submitSeq_spec (bs : List Burst) (file : FileState) :
    (submitSeq file bs).2 =
      (specPrefixOffsets file.file_pointer (bs.map (·.len))).map some ∧
    (submitSeq file bs).1.file_pointer =
      file.file_pointer + (((bs.map (·.len)).sum : Nat) : Int) := by
  induction bs generalizing file with
  | nil => simp [submitSeq, specPrefixOffsets]
  | cons b rest ih =>
    have hstep :
        (burstSubmit file b).req.map (·.overlappedOffset) =
            some file.file_pointer ∧
        (burstSubmit file b).st.file_pointer =
            file.file_pointer + (b.len : Int) := by
      rcases b with ⟨dir, len, os⟩
      cases dir with
      | read => exact uv_file_read_seq file len os
      | write => exact uv_file_write_seq file len os
    have ihs := ih (burstSubmit file b).st
    constructor
    · simp only [submitSeq, List.map_cons, specPrefixOffsets]
      rw [hstep.1, ihs.1, hstep.2]
    · simp only [submitSeq, List.map_cons, List.sum_cons]
      rw [ihs.2, hstep.2]
      push_cast
      ring

lemma specPrefixOffsets_get (ls : List Nat) (c : Int) (i : Nat)
    (h : i < ls.length) :
    (specPrefixOffsets c ls)[i]? =
      some (c + (((ls.take i).sum : Nat) : Int)) := by
  induction ls generalizing c i with
  | nil => simp at h
  | cons l ls ih =>
    cases i with
    | zero => simp [specPrefixOffsets]
    | succ n =>
      have hn : n < ls.length := by simpa using h
      have hih := ih (c + (l : Int)) n hn
      simp only [specPrefixOffsets, List.getElem?_cons_succ, hih,
        List.take_succ_cons, List.sum_cons]
      congr 1
      push_cast
      ring

/-- C1: cursor reservation — for a burst of `CURRENT`-disposition
sequential submissions issued back-to-back with no intervening completion,
the i-th submission's resolved absolute offset is the handle's initial
logical cursor plus the sum of the preceding buffer lengths, for every OS
outcome of every submission; and the cursor itself ends up advanced by the
total of all buffer lengths (it is advanced by each buffer length before
the OS call is issued, so even a hard-failing submission advances it). -/
theorem cursor_reservation (c0 : Int) (bs : List Burst) (i : Nat)
    (h : i < bs.length) :
    (submitSeq (uv_file_init c0) bs).2[i]? =
      some (some (c0 + ((((bs.take i).map (·.len)).sum : Nat) : Int))) ∧
    (submitSeq (uv_file_init c0) bs).1.file_pointer =
      c0 + (((bs.map (·.len)).sum : Nat) : Int) := by
  have hspec := submitSeq_spec bs (uv_file_init c0)
  have hc : (uv_file_init c0).file_pointer = c0 := rfl
  rw [hc] at hspec
  refine ⟨?_, hspec.2⟩
  rw [hspec.1]
  have hlen : i < (bs.map (·.len)).length := by simpa using h
  rw [List.getElem?_map, specPrefixOffsets_get (bs.map (·.len)) c0 i hlen,
    ← List.map_take]
  rfl

/-- Witness for C1: a read, a write and a hard-failing read of lengths
5, 3, 7 starting at cursor 100; the third submission's resolved offset is
100 + 5 + 3 and the final cursor is 100 + 15. -/
theorem cursor_reservation_witness :
    (submitSeq (uv_file_init 100)
        [⟨.read, 5, .pending⟩, ⟨.write, 3, .sync⟩,
         ⟨.read, 7, .hardFail 5⟩]).2[2]? =
      some (some (100 + (((([⟨.read, 5, .pending⟩, ⟨.write, 3, .sync⟩,
         ⟨.read, 7, .hardFail 5⟩] : List Burst).take 2).map
            (·.len)).sum : Nat) : Int)) ∧
    (submitSeq (uv_file_init 100)
        [⟨.read, 5, .pending⟩, ⟨.write, 3, .sync⟩,
         ⟨.read, 7, .hardFail 5⟩]).1.file_pointer =
      100 + (((([⟨.read, 5, .pending⟩, ⟨.write, 3, .sync⟩,
         ⟨.read, 7, .hardFail 5⟩] : List Burst).map (·.len)).sum : Nat) : Int) :=
  cursor_reservation 100
    [⟨.read, 5, .pending⟩, ⟨.write, 3, .sync⟩, ⟨.read, 7, .hardFail 5⟩]
    2 (by decide)

lemma read_offset_out (file : FileState) (off : Int) (disp : Disposition)
    (bufs : List Nat) (hasCb : Bool) (os : OSSubmit) :
    (uv_file_read_offset file off disp bufs hasCb os).st.flags =
      file.flags ∧
    (uv_file_read_offset file off disp bufs hasCb os).st.hasCloseCb =
      file.hasCloseCb ∧
    (uv_file_read_offset file off disp bufs hasCb os).st.closeCbCalls =
      file.closeCbCalls ∧
    (uv_file_read_offset file off disp bufs hasCb os).st.write_reqs_pending =
      file.write_reqs_pending ∧
    ((uv_file_read_offset file off disp bufs hasCb os).ret = .ok →
      (uv_file_read_offset file off disp bufs hasCb os).st.read_reqs_pending =
        file.read_reqs_pending + 1 ∧
      (uv_file_read_offset file off disp bufs hasCb os).st.reqs_pending =
        file.reqs_pending + 1 ∧
      (uv_file_read_offset file off disp bufs hasCb os).req.isSome = true) ∧
    ((uv_file_read_offset file off disp bufs hasCb os).ret ≠ .ok →
      (uv_file_read_offset file off disp bufs hasCb os).st.read_reqs_pending =
        file.read_reqs_pending ∧
      (uv_file_read_offset file off disp bufs hasCb os).st.reqs_pending =
        file.reqs_pending) := by
  unfold uv_file_read_offset
  split
  · simp
  · cases disp <;> simp [resolveOffset] <;> cases os <;> simp

lemma write_offset_out (file : FileState) (off : Int) (disp : Disposition)
    (bufs : List Nat) (hasCb : Bool) (os : OSSubmit) :
    (uv_file_write_offset file off disp bufs hasCb os).st.flags =
      file.flags ∧
    (uv_file_write_offset file off disp bufs hasCb os).st.hasCloseCb =
      file.hasCloseCb ∧
    (uv_file_write_offset file off disp bufs hasCb os).st.closeCbCalls =
      file.closeCbCalls ∧
    (uv_file_write_offset file off disp bufs hasCb os).st.read_reqs_pending =
      file.read_reqs_pending ∧
    ((uv_file_write_offset file off disp bufs hasCb os).ret = .ok →
      (uv_file_write_offset file off disp bufs hasCb os).st.write_reqs_pending =
        file.write_reqs_pending + 1 ∧
      (uv_file_write_offset file off disp bufs hasCb os).st.reqs_pending =
        file.reqs_pending + 1 ∧
      (uv_file_write_offset file off disp bufs hasCb os).req.isSome = true) ∧
    ((uv_file_write_offset file off disp bufs hasCb os).ret ≠ .ok →
      (uv_file_write_offset file off disp bufs hasCb os).st.write_reqs_pending =
        file.write_reqs_pending ∧
      (uv_file_write_offset file off disp bufs hasCb os).st.reqs_pending =
        file.reqs_pending) := by
  unfold uv_file_write_offset
  split
  · simp
  · cases disp <;> simp [resolveOffset] <;> cases os <;> simp

lemma shutdown_step_fields (st : FileState) :
    (uv_file_endgame_shutdown st).closeCbCalls = st.closeCbCalls ∧
    (uv_file_endgame_shutdown st).hasCloseCb = st.hasCloseCb ∧
    (uv_file_endgame_shutdown st).flags.closed = st.flags.closed ∧
    (uv_file_endgame_shutdown st).flags.closing = st.flags.closing ∧
    (uv_file_endgame_shutdown st).flags.shutting = st.flags.shutting ∧
    (uv_file_endgame_shutdown st).read_reqs_pending = st.read_reqs_pending ∧
    (uv_file_endgame_shutdown st).write_reqs_pending = st.write_reqs_pending := by
  unfold uv_file_endgame_shutdown close_file
  split <;> simp

lemma shutdown_step_shut (st : FileState) (hsh : st.flags.shutting = true)
    (hw : st.write_reqs_pending = 0) :
    (uv_file_endgame_shutdown st).flags.shut = true := by
  cases hshut : st.flags.shut with
  | true => simp [uv_file_endgame_shutdown, hshut]
  | false => simp [uv_file_endgame_shutdown, close_file, hsh, hshut, hw]

lemma shutdown_step_InvSt {st : FileState} {nr nw : Nat}
    (h : InvSt st nr nw) : InvSt (uv_file_endgame_shutdown st) nr nw := by
  obtain ⟨h1, h2, h3, h4, h5, h6⟩ := h
  unfold uv_file_endgame_shutdown close_file
  split
  · next hguard =>
    simp only [Bool.and_eq_true, Bool.not_eq_true', beq_iff_eq] at hguard
    obtain ⟨⟨hsh, hns⟩, hw⟩ := hguard
    refine ⟨h1, h2, ?_, h4, h5, fun _ => hsh⟩
    simp only [shutdownVirtual, hsh, hns] at h3
    simp only [shutdownVirtual]
    simp [h3]
  · exact ⟨h1, h2, h3, h4, h5, h6⟩

lemma close_step_InvSt {st st' : FileState} {nr nw : Nat}
    (h : InvSt st nr nw) (hc : uv_file_endgame_close st = some st') :
    InvSt st' nr nw := by
  obtain ⟨h1, h2, h3, h4, h5, h6⟩ := h
  unfold uv_file_endgame_close at hc
  split at hc
  · next hguard =>
    simp only [Bool.and_eq_true, beq_iff_eq] at hguard
    split at hc
    · exact absurd hc (by simp)
    · next hncl =>
      simp only [Bool.not_eq_true] at hncl
      dsimp only at hc
      split at hc <;>
      · cases hc
        refine ⟨h1, h2, ?_, ?_, fun _ => hguard.1, h6⟩
        · simpa [shutdownVirtual] using h3
        · simp_all
  · cases hc
    exact ⟨h1, h2, h3, h4, h5, h6⟩

lemma step_inv {w : World} {e : Event} {w' : World}
    (h : Inv w) (hs : step w e = some w') : Inv w' := by
  obtain ⟨h1, h2, h3, h4, h5, h6⟩ := h
  cases e with
  | subRead off disp bufs hasCb os =>
    obtain ⟨hfl, hcb, hcc, hwp, hok, hnok⟩ :=
      read_offset_out w.st off disp bufs hasCb os
    simp only [step] at hs
    cases hret : (uv_file_read_offset w.st off disp bufs hasCb os).ret with
    | ok =>
      obtain ⟨hr1, hr2, hr3⟩ := hok hret
      obtain ⟨r, hreq⟩ := Option.isSome_iff_exists.mp hr3
      simp only [hret, hreq] at hs
      cases hs
      refine ⟨?_, ?_, ?_, ?_, ?_, ?_⟩
      · rw [hr1, h1]
        simp only [Option.toList_some, List.singleton_append, List.length_cons]
        push_cast
        ring
      · simpa [hwp] using h2
      · rw [hr2, hr1, hwp]
        have hv : shutdownVirtual
            (uv_file_read_offset w.st off disp bufs hasCb os).st =
            shutdownVirtual w.st := by
          simp [shutdownVirtual, hfl]
        rw [hv]
        omega
      · simpa [hcc, hfl, hcb] using h4
      · simpa [hfl] using h5
      · simpa [hfl] using h6
    | notsup =>
      obtain ⟨hr1, hr2⟩ := hnok (by simp [hret])
      simp only [hret] at hs
      cases hs
      refine ⟨?_, ?_, ?_, ?_, ?_, ?_⟩
      · simpa [hr1] using h1
      · simpa [hwp] using h2
      · have hv : shutdownVirtual
            (uv_file_read_offset w.st off disp bufs hasCb os).st =
            shutdownVirtual w.st := by
          simp [shutdownVirtual, hfl]
        rw [hr2, hr1, hwp, hv]
        omega
      · simpa [hcc, hfl, hcb] using h4
      · simpa [hfl] using h5
      · simpa [hfl] using h6
    | syserr code =>
      obtain ⟨hr1, hr2⟩ := hnok (by simp [hret])
      simp only [hret] at hs
      cases hs
      refine ⟨?_, ?_, ?_, ?_, ?_, ?_⟩
      · simpa [hr1] using h1
      · simpa [hwp] using h2
      · have hv : shutdownVirtual
            (uv_file_read_offset w.st off disp bufs hasCb os).st =
            shutdownVirtual w.st := by
          simp [shutdownVirtual, hfl]
        rw [hr2, hr1, hwp, hv]
        omega
      · simpa [hcc, hfl, hcb] using h4
      · simpa [hfl] using h5
      · simpa [hfl] using h6
  | subWrite off disp bufs hasCb os =>
    obtain ⟨hfl, hcb, hcc, hrp, hok, hnok⟩ :=
      write_offset_out w.st off disp bufs hasCb os
    simp only [step] at hs
    cases hret : (uv_file_write_offset w.st off disp bufs hasCb os).ret with
    | ok =>
      obtain ⟨hr1, hr2, hr3⟩ := hok hret
      obtain ⟨r, hreq⟩ := Option.isSome_iff_exists.mp hr3
      simp only [hret, hreq] at hs
      cases hs
      refine ⟨?_, ?_, ?_, ?_, ?_, ?_⟩
      · simpa [hrp] using h1
      · rw [hr1, h2]
        simp only [Option.toList_some, List.singleton_append, List.length_cons]
        push_cast
        ring
      · rw [hr2, hr1, hrp]
        have hv : shutdownVirtual
            (uv_file_write_offset w.st off disp bufs hasCb os).st =
            shutdownVirtual w.st := by
          simp [shutdownVirtual, hfl]
        rw [hv]
        omega
      · simpa [hcc, hfl, hcb] using h4
      · simpa [hfl] using h5
      · simpa [hfl] using h6
    | notsup =>
      obtain ⟨hr1, hr2⟩ := hnok (by simp [hret])
      simp only [hret] at hs
      cases hs
      refine ⟨?_, ?_, ?_, ?_, ?_, ?_⟩
      · simpa [hrp] using h1
      · simpa [hr1] using h2
      · have hv : shutdownVirtual
            (uv_file_write_offset w.st off disp bufs hasCb os).st =
            shutdownVirtual w.st := by
          simp [shutdownVirtual, hfl]
        rw [hr2, hr1, hrp, hv]
        omega
      · simpa [hcc, hfl, hcb] using h4
      · simpa [hfl] using h5
      · simpa [hfl] using h6
    | syserr code =>
      obtain ⟨hr1, hr2⟩ := hnok (by simp [hret])
      simp only [hret] at hs
      cases hs
      refine ⟨?_, ?_, ?_, ?_, ?_, ?_⟩
      · simpa [hrp] using h1
      · simpa [hr1] using h2
      · have hv : shutdownVirtual
            (uv_file_write_offset w.st off disp bufs hasCb os).st =
            shutdownVirtual w.st := by
          simp [shutdownVirtual, hfl]
        rw [hr2, hr1, hrp, hv]
        omega
      · simpa [hcc, hfl, hcb] using h4
      · simpa [hfl] using h5
      · simpa [hfl] using h6
  | compRead i query =>
    simp only [step] at hs
    cases hget : w.inflightReads[i]? with
    | none => simp [hget] at hs
    | some r =>
      have hlt : i < w.inflightReads.length :=
        (List.getElem?_eq_some.mp hget).1
      have hlen := List.length_eraseIdx_add_one hlt
      simp only [hget] at hs
      cases hs
      refine ⟨?_, ?_, ?_, ?_, ?_, ?_⟩
      · show (uv_process_file_read_req w.st r query).1.read_reqs_pending =
          ((w.inflightReads.eraseIdx i).length : Int)
        have : (uv_process_file_read_req w.st r query).1.read_reqs_pending =
            w.st.read_reqs_pending - 1 := rfl
        rw [this, h1]
        omega
      · exact h2
      · show (uv_process_file_read_req w.st r query).1.reqs_pending = _
        have hv : shutdownVirtual (uv_process_file_read_req w.st r query).1 =
            shutdownVirtual w.st := rfl
        have hq : (uv_process_file_read_req w.st r query).1.reqs_pending =
            w.st.reqs_pending - 1 := rfl
        have hrr : (uv_process_file_read_req w.st r query).1.read_reqs_pending =
            w.st.read_reqs_pending - 1 := rfl
        have hww : (uv_process_file_read_req w.st r query).1.write_reqs_pending =
            w.st.write_reqs_pending := rfl
        rw [hq, hv, hrr, hww]
        omega
      · exact h4
      · exact h5
      · exact h6
  | compWrite i query =>
    simp only [step] at hs
    cases hget : w.inflightWrites[i]? with
    | none => simp [hget] at hs
    | some r =>
      have hlt : i < w.inflightWrites.length :=
        (List.getElem?_eq_some.mp hget).1
      have hlen := List.length_eraseIdx_add_one hlt
      simp only [hget] at hs
      cases hs
      refine ⟨?_, ?_, ?_, ?_, ?_, ?_⟩
      · exact h1
      · show (uv_process_file_write_req w.st r query).1.write_reqs_pending =
          ((w.inflightWrites.eraseIdx i).length : Int)
        have : (uv_process_file_write_req w.st r query).1.write_reqs_pending =
            w.st.write_reqs_pending - 1 := rfl
        rw [this, h2]
        omega
      · show (uv_process_file_write_req w.st r query).1.reqs_pending = _
        have hv : shutdownVirtual (uv_process_file_write_req w.st r query).1 =
            shutdownVirtual w.st := rfl
        have hq : (uv_process_file_write_req w.st r query).1.reqs_pending =
            w.st.reqs_pending - 1 := rfl
        have hrr : (uv_process_file_write_req w.st r query).1.read_reqs_pending =
            w.st.read_reqs_pending := rfl
        have hww : (uv_process_file_write_req w.st r query).1.write_reqs_pending =
            w.st.write_reqs_pending - 1 := rfl
        rw [hq, hv, hrr, hww]
        omega
      · exact h4
      · exact h5
      · exact h6
  | endgame =>
    simp only [step] at hs
    cases hend : uv_file_endgame w.st with
    | none => simp [hend] at hs
    | some st' =>
      simp only [hend] at hs
      cases hs
      have hmid := @shutdown_step_InvSt w.st w.inflightReads.length
        w.inflightWrites.length ⟨h1, h2, h3, h4, h5, h6⟩
      exact close_step_InvSt hmid hend
  | shutdownReq =>
    simp only [step] at hs
    split at hs
    · cases hs
    · next hsh =>
      simp only [Bool.not_eq_true] at hsh
      cases hs
      have hshut : w.st.flags.shut = false := by
        cases hshv : w.st.flags.shut with
        | false => rfl
        | true => rw [h6 hshv] at hsh; cases hsh
      refine ⟨h1, h2, ?_, ?_, ?_, ?_⟩
      · show w.st.reqs_pending + 1 = _
        have hv : shutdownVirtual (uv_shutdown_model w.st) = 1 := by
          simp [shutdownVirtual, uv_shutdown_model, hshut]
        have hv0 : shutdownVirtual w.st = 0 := by
          simp [shutdownVirtual, hsh]
        rw [hv]
        simp only [uv_shutdown_model]
        rw [h3, hv0]
        ring
      · simpa [uv_shutdown_model] using h4
      · simpa [uv_shutdown_model] using h5
      · simp [uv_shutdown_model]
  | closeReq hasCb =>
    simp only [step] at hs
    split at hs
    · cases hs
    · next hcl =>
      simp only [Bool.not_eq_true] at hcl
      cases hs
      have hclosed : w.st.flags.closed = false := by
        cases hclv : w.st.flags.closed with
        | false => rfl
        | true => rw [h5 hclv] at hcl; cases hcl
      refine ⟨h1, h2, ?_, ?_, ?_, ?_⟩
      · have hv : shutdownVirtual (uv_close_model w.st hasCb) =
            shutdownVirtual w.st := by
          simp [shutdownVirtual, uv_close_model]
        simpa [uv_close_model, hv] using h3
      · simp [uv_close_model, hclosed]
        simpa [hclosed] using h4
      · simp [uv_close_model]
      · simpa [uv_close_model] using h6

lemma inv_init (c0 : Int) : Inv (initWorld c0) := by
  refine ⟨rfl, rfl, ?_, ?_, ?_, ?_⟩ <;>
    simp [initWorld, uv_file_init, shutdownVirtual]

lemma run_inv {w0 : World} (evs : List Event) {w : World}
    (h0 : Inv w0) (hrun : run w0 evs = some w) : Inv w := by
  induction evs generalizing w0 with
  | nil =>
    simp only [run] at hrun
    cases hrun
    exact h0
  | cons e es ih =>
    simp only [run] at hrun
    cases hstep : step w0 e with
    | none => simp [hstep] at hrun
    | some w1 =>
      simp only [hstep] at hrun
      exact ih (step_inv h0 hstep) hrun

lemma shutdown_step_noop {st : FileState}
    (h : st.flags.shutting = false ∨ st.flags.shut = true ∨
      st.write_reqs_pending ≠ 0) :
    uv_file_endgame_shutdown st = st := by
  rcases h with h | h | h <;> simp [uv_file_endgame_shutdown, h]

lemma shutdown_step_shut_preserved {st : FileState}
    (h : st.flags.shut = true) :
    (uv_file_endgame_shutdown st).flags.shut = true := by
  simp [uv_file_endgame_shutdown, h]

lemma close_step_fields {st st' : FileState}
    (h : uv_file_endgame_close st = some st') :
    st'.flags.shutting = st.flags.shutting ∧
    st'.flags.shut = st.flags.shut ∧
    st'.flags.closing = st.flags.closing ∧
    st'.reqs_pending = st.reqs_pending ∧
    st'.read_reqs_pending = st.read_reqs_pending ∧
    st'.write_reqs_pending = st.write_reqs_pending := by
  unfold uv_file_endgame_close at h
  split at h
  · split at h
    · cases h
    · dsimp only at h
      split at h <;> (cases h; simp)
  · cases h
    simp

lemma close_step_fire {st st' : FileState}
    (h : uv_file_endgame_close st = some st')
    (hne : st'.closeCbCalls ≠ st.closeCbCalls) :
    st.flags.closing = true ∧ st.reqs_pending = 0 ∧
    st.flags.closed = false ∧ st'.flags.closed = true ∧
    st.hasCloseCb = true ∧
    st'.closeCbCalls = st.closeCbCalls + 1 ∧
    st'.flags.shut = st.flags.shut ∧
    st'.reqs_pending = st.reqs_pending := by
  unfold uv_file_endgame_close at h
  split at h
  · next hguard =>
    simp only [Bool.and_eq_true, beq_iff_eq] at hguard
    split at h
    · cases h
    · next hncl =>
      simp only [Bool.not_eq_true] at hncl
      dsimp only at h
      split at h
      · next hcb =>
        cases h
        exact ⟨hguard.1, hguard.2, hncl, rfl, hcb, rfl, rfl, rfl⟩
      · cases h
        exact absurd rfl hne
  · cases h
    exact absurd rfl hne

lemma step_calls_nonendgame {w : World} {e : Event} {w' : World}
    (he : e ≠ .endgame) (hs : step w e = some w') :
    w'.st.closeCbCalls = w.st.closeCbCalls := by
  cases e with
  | subRead off disp bufs hasCb os =>
    obtain ⟨_, _, hcc, _, hok, _⟩ :=
      read_offset_out w.st off disp bufs hasCb os
    simp only [step] at hs
    cases hret : (uv_file_read_offset w.st off disp bufs hasCb os).ret with
    | ok =>
      obtain ⟨_, _, hr3⟩ := hok hret
      obtain ⟨r, hreq⟩ := Option.isSome_iff_exists.mp hr3
      simp only [hret, hreq] at hs
      cases hs
      exact hcc
    | notsup =>
      simp only [hret] at hs
      cases hs
      exact hcc
    | syserr code =>
      simp only [hret] at hs
      cases hs
      exact hcc
  | subWrite off disp bufs hasCb os =>
    obtain ⟨_, _, hcc, _, hok, _⟩ :=
      write_offset_out w.st off disp bufs hasCb os
    simp only [step] at hs
    cases hret : (uv_file_write_offset w.st off disp bufs hasCb os).ret with
    | ok =>
      obtain ⟨_, _, hr3⟩ := hok hret
      obtain ⟨r, hreq⟩ := Option.isSome_iff_exists.mp hr3
      simp only [hret, hreq] at hs
      cases hs
      exact hcc
    | notsup =>
      simp only [hret] at hs
      cases hs
      exact hcc
    | syserr code =>
      simp only [hret] at hs
      cases hs
      exact hcc
  | compRead i query =>
    simp only [step] at hs
    cases hget : w.inflightReads[i]? with
    | none => simp [hget] at hs
    | some r =>
      simp only [hget] at hs
      cases hs
      rfl
  | compWrite i query =>
    simp only [step] at hs
    cases hget : w.inflightWrites[i]? with
    | none => simp [hget] at hs
    | some r =>
      simp only [hget] at hs
      cases hs
      rfl
  | endgame => exact absurd rfl he
  | shutdownReq =>
    simp only [step] at hs
    split at hs
    · cases hs
    · cases hs
      rfl
  | closeReq hasCb =>
    simp only [step] at hs
    split at hs
    · cases hs
    · cases hs
      rfl

lemma step_basic_flags {w : World} {e : Event} {w' : World}
    (hb : e.isBasic = true) (hs : step w e = some w') :
    w'.st.flags.shutting = w.st.flags.shutting ∧
    w'.st.flags.closing = w.st.flags.closing := by
  cases e with
  | subRead off disp bufs hasCb os =>
    obtain ⟨hfl, _, _, _, hok, _⟩ :=
      read_offset_out w.st off disp bufs hasCb os
    simp only [step] at hs
    cases hret : (uv_file_read_offset w.st off disp bufs hasCb os).ret with
    | ok =>
      obtain ⟨_, _, hr3⟩ := hok hret
      obtain ⟨r, hreq⟩ := Option.isSome_iff_exists.mp hr3
      simp only [hret, hreq] at hs
      cases hs
      simp [hfl]
    | notsup =>
      simp only [hret] at hs
      cases hs
      simp [hfl]
    | syserr code =>
      simp only [hret] at hs
      cases hs
      simp [hfl]
  | subWrite off disp bufs hasCb os =>
    obtain ⟨hfl, _, _, _, hok, _⟩ :=
      write_offset_out w.st off disp bufs hasCb os
    simp only [step] at hs
    cases hret : (uv_file_write_offset w.st off disp bufs hasCb os).ret with
    | ok =>
      obtain ⟨_, _, hr3⟩ := hok hret
      obtain ⟨r, hreq⟩ := Option.isSome_iff_exists.mp hr3
      simp only [hret, hreq] at hs
      cases hs
      simp [hfl]
    | notsup =>
      simp only [hret] at hs
      cases hs
      simp [hfl]
    | syserr code =>
      simp only [hret] at hs
      cases hs
      simp [hfl]
  | compRead i query =>
    simp only [step] at hs
    cases hget : w.inflightReads[i]? with
    | none => simp [hget] at hs
    | some r =>
      simp only [hget] at hs
      cases hs
      exact ⟨rfl, rfl⟩
  | compWrite i query =>
    simp only [step] at hs
    cases hget : w.inflightWrites[i]? with
    | none => simp [hget] at hs
    | some r =>
      simp only [hget] at hs
      cases hs
      exact ⟨rfl, rfl⟩
  | endgame =>
    simp only [step] at hs
    cases hend : uv_file_endgame w.st with
    | none => simp [hend] at hs
    | some st' =>
      simp only [hend] at hs
      cases hs
      unfold uv_file_endgame at hend
      obtain ⟨hc1, _, hc3, _, _, _⟩ := close_step_fields hend
      obtain ⟨_, _, _, hs4, hs5, _, _⟩ :=
        shutdown_step_fields w.st
      exact ⟨hc1.trans hs5, hc3.trans hs4⟩
  | shutdownReq => simp [Event.isBasic] at hb
  | closeReq hasCb => simp [Event.isBasic] at hb

lemma run_basic_flags {w0 : World} (evs : List Event) {w : World}
    (hb : ∀ e ∈ evs, e.isBasic = true) (hrun : run w0 evs = some w) :
    w.st.flags.shutting = w0.st.flags.shutting ∧
    w.st.flags.closing = w0.st.flags.closing := by
  induction evs generalizing w0 with
  | nil =>
    simp only [run] at hrun
    cases hrun
    exact ⟨rfl, rfl⟩
  | cons e es ih =>
    simp only [run] at hrun
    cases hstep : step w0 e with
    | none => simp [hstep] at hrun
    | some w1 =>
      simp only [hstep] at hrun
      obtain ⟨ha, hc⟩ := step_basic_flags (hb e (by simp)) hstep
      obtain ⟨ha', hc'⟩ := ih (fun e' he' => hb e' (by simp [he'])) hrun
      exact ⟨ha'.trans ha, hc'.trans hc⟩

/-- C2: pending accounting — after any sequence of submissions,
completions, and endgame steps on a freshly initialized handle,
`reqs_pending` equals `read_reqs_pending + write_reqs_pending`, and all
three counters are non-negative. -/
theorem pending_accounting (c0 : Int) (evs : List Event)
    (hb : ∀ e ∈ evs, e.isBasic = true) (w : World)
    (hrun : run (initWorld c0) evs = some w) :
    w.st.reqs_pending =
      w.st.read_reqs_pending + w.st.write_reqs_pending ∧
    0 ≤ w.st.read_reqs_pending ∧ 0 ≤ w.st.write_reqs_pending ∧
    0 ≤ w.st.reqs_pending := by
  obtain ⟨h1, h2, h3, h4, h5, h6⟩ := run_inv evs (inv_init c0) hrun
  obtain ⟨hsh, hcl⟩ := run_basic_flags evs hb hrun
  have hsh0 : w.st.flags.shutting = false := by rw [hsh]; rfl
  have hv : shutdownVirtual w.st = 0 := by simp [shutdownVirtual, hsh0]
  rw [h3, hv, h1, h2]
  omega

/-- Witness for C2: a pending read, a synchronous write, the read's
completion and an endgame step on a fresh handle. -/
theorem pending_accounting_witness :
    ∃ w, run (initWorld 0)
        [Event.subRead 0 .CURRENT [5] true .pending,
         Event.subWrite 0 .CURRENT [3] true .sync,
         Event.compRead 0 (some 5), Event.endgame] = some w ∧
      (w.st.reqs_pending =
        w.st.read_reqs_pending + w.st.write_reqs_pending ∧
       0 ≤ w.st.read_reqs_pending ∧ 0 ≤ w.st.write_reqs_pending ∧
       0 ≤ w.st.reqs_pending) :=
  ⟨_, rfl, pending_accounting 0
    [Event.subRead 0 .CURRENT [5] true .pending,
     Event.subWrite 0 .CURRENT [3] true .sync,
     Event.compRead 0 (some 5), Event.endgame] (by decide) _ rfl⟩

/-- C3: close ordering — in every reachable world the close callback has
fired at most once; any step that fires it is an endgame step firing it
for the first time, at a moment when `closing` is set and `reqs_pending`
has reached 0, transitioning the handle to `closed`, and (if a graceful
shutdown was previously requested) only after the write drain completed
(`shut` set); and re-running the endgame on an already-`closed` handle
with `reqs_pending = 0` trips the assertion (models a fatal invariant
violation). -/
theorem close_ordering (c0 : Int) (evs : List Event) (w : World)
    (hrun : run (initWorld c0) evs = some w) :
    w.st.closeCbCalls ≤ 1 ∧
    (∀ e w', step w e = some w' →
      w'.st.closeCbCalls ≠ w.st.closeCbCalls →
      (e = .endgame ∧
       w.st.closeCbCalls = 0 ∧ w'.st.closeCbCalls = 1 ∧
       w.st.flags.closing = true ∧ w.st.flags.closed = false ∧
       w'.st.flags.closed = true ∧ w'.st.reqs_pending = 0 ∧
       (w.st.flags.shutting = true → w'.st.flags.shut = true))) ∧
    (w.st.flags.closed = true → w.st.reqs_pending = 0 →
      step w .endgame = none) := by
  obtain ⟨h1, h2, h3, h4, h5, h6⟩ := run_inv evs (inv_init c0) hrun
  refine ⟨?_, ?_, ?_⟩
  · rw [h4]
    split <;> omega
  · intro e w' hs hne
    by_cases he : e = .endgame
    case neg => exact absurd (step_calls_nonendgame he hs) hne
    subst he
    simp only [step] at hs
    cases hend : uv_file_endgame w.st with
    | none => simp [hend] at hs
    | some st' =>
      simp only [hend] at hs
      cases hs
      unfold uv_file_endgame at hend
      obtain ⟨hm1, hm2, hm3, hm4, hm5, hm6, hm7⟩ := shutdown_step_fields w.st
      have hnemid : st'.closeCbCalls ≠
          (uv_file_endgame_shutdown w.st).closeCbCalls := by
        rw [hm1]
        exact hne
      obtain ⟨hf1, hf2, hf3, hf4, hf5, hf6, hf7, hf8⟩ :=
        close_step_fire hend hnemid
      rw [hm3] at hf3
      rw [hm4] at hf1
      rw [hm1] at hf6
      have hcall0 : w.st.closeCbCalls = 0 := by
        rw [h4, hf3]
        simp
      refine ⟨rfl, hcall0, by rw [hf6, hcall0], hf1, hf3, hf4,
        hf8.trans hf2, ?_⟩
      intro hshw
      rw [hf7]
      by_cases hshut : w.st.flags.shut = true
      · exact shutdown_step_shut_preserved hshut
      · have hshutf : w.st.flags.shut = false := by simpa using hshut
        by_cases hw0 : w.st.write_reqs_pending = 0
        · exact shutdown_step_shut w.st hshw hw0
        · exfalso
          have hmid : uv_file_endgame_shutdown w.st = w.st :=
            shutdown_step_noop (Or.inr (Or.inr hw0))
          rw [hmid] at hf2
          have hv1 : shutdownVirtual w.st = 1 := by
            simp [shutdownVirtual, hshw, hshutf]
          rw [h3, hv1, h1, h2] at hf2
          omega
  · intro hcd hrq
    have hcl := h5 hcd
    have hvirt : w.st.flags.shutting = false ∨ w.st.flags.shut = true := by
      by_cases hc : w.st.flags.shutting = true ∧ w.st.flags.shut = false
      · exfalso
        have hv1 : shutdownVirtual w.st = 1 := by
          simp [shutdownVirtual, hc.1, hc.2]
        rw [h3, hv1, h1, h2] at hrq
        omega
      · rcases not_and_or.mp hc with h | h
        · exact Or.inl (by simpa using h)
        · exact Or.inr (by simpa using h)
    have hcrash : uv_file_endgame w.st = none := by
      unfold uv_file_endgame
      rw [shutdown_step_noop (hvirt.imp id Or.inl)]
      unfold uv_file_endgame_close
      simp [hcl, hcd, hrq]
    simp [step, hcrash]

/-- Witness for C3: arming `closing` on a fresh handle and running the
endgame fires the close callback exactly once, with `reqs_pending = 0`. -/
theorem close_ordering_witness :
    ∃ w w', run (initWorld 0) [Event.closeReq true] = some w ∧
      step w Event.endgame = some w' ∧
      w.st.closeCbCalls = 0 ∧ w'.st.closeCbCalls = 1 ∧
      w.st.flags.closing = true ∧ w'.st.flags.closed = true ∧
      w'.st.reqs_pending = 0 := by
  obtain ⟨hle, hfire, hcrash⟩ :=
    close_ordering 0 [Event.closeReq true] _ rfl
  obtain ⟨-, hc0, hc1, hclw, -, hcd, hrq, -⟩ :=
    hfire Event.endgame _ rfl (by decide)
  exact ⟨_, _, rfl, rfl, hc0, hc1, hclw, hcd, hrq⟩

end UvFile
